import Mathlib

/-!
Verification of the pervasive-attention 2D translation decoder
(`examples/pervasive/models/archive/attn2d_dynamic_ll.py` and
`examples/pervasive/modules/archive/resnet6.py`).

The development is a shallow embedding of the numeric core:
tensors become functions over `Fin`-indexed positions with integer
feature values (floats are idealised as exact arithmetic; the final
log-softmax stage, which is genuinely transcendental, is modelled
over `ℝ`).  All operations of the source act independently on the
batch axis, so the embedding works with a single batch element.

Modules of this repository that are referenced but whose source is
not part of the snapshot (`fairseq.modules.MaskedConvolution`,
`GridMAX`, `LLControls`) are modelled from the specification; their
doc strings say so explicitly.
-/

namespace Attn2d

/-- One grid row: features indexed by source position and channel. -/
abbrev GRow (S C : ℕ) := Fin S → Fin C → ℤ

/-- A grid of target rows (target index unbounded so that streams of
incremental rows and full-sequence grids share one type; entries past
the sequence length are never read by the causal operations at the
rows under consideration). -/
abbrev Grid (S C : ℕ) := ℕ → GRow S C

/-! ### Grid builder (`_expand` + `torch.cat`, attn2d_dynamic_ll.py:549-552, 379-381, 453-456) -/

/-- Grid builder: `src_emb = _expand(src_emb, 1, tgt_length)`,
`tgt_emb = _expand(tgt_emb, 2, src_length)`, `x = torch.cat((src_emb, tgt_emb), dim=3)`.
The entry at target row `i`, source column `j` is the channel-wise
concatenation of the source embedding at `j` and the target embedding at `i`.
The inputs are plain functions, so building the grid cannot mutate them. -/
def buildGrid {S Cs Ct : ℕ} (srcE : Fin S → Fin Cs → ℤ) (tgtE : ℕ → Fin Ct → ℤ) :
    Grid S (Cs + Ct) :=
  fun i j c =>
    if h : (c : ℕ) < Cs then srcE j ⟨c, h⟩
    else tgtE i ⟨(c : ℕ) - Cs, by have := c.isLt; omega⟩

/-- A rank-3 tensor (batch, length, channel) with dynamic shape, used to
model the shape checks torch performs in the grid builder. -/
structure T3 where
  batch : ℕ
  len : ℕ
  chan : ℕ
  data : ℕ → ℕ → ℕ → ℤ

/-- A rank-4 tensor (batch, target, source, channel) with dynamic shape. -/
structure T4 where
  batch : ℕ
  dim1 : ℕ
  dim2 : ℕ
  chan : ℕ
  data : ℕ → ℕ → ℕ → ℕ → ℤ

/-- The runtime error raised by `torch.cat` on mismatched shapes. -/
inductive ShapeError where
  | catSizeMismatch
deriving DecidableEq, Repr

/-- Shape-checked grid builder, modelling
`torch.cat((_expand(src, 1, Tt), _expand(tgt, 2, Ts)), dim=3)`.
`unsqueeze` followed by `expand` of the fresh singleton dimension never
fails in torch (a size-1 dimension may be expanded to any size, zero
included), so the only shape check is the one `torch.cat` performs:
dimensions other than the concatenation axis must agree.  After the two
expands, dims 1 and 2 agree by construction (`Tt` resp. `Ts` on both
sides), leaving only the batch dimension to compare. -/
def expandCat (src tgt : T3) : Except ShapeError T4 :=
  if src.batch = tgt.batch then
    .ok ⟨src.batch, tgt.len, src.len, src.chan + tgt.chan,
      fun b i j c => if c < src.chan then src.data b j c else tgt.data b i (c - src.chan)⟩
  else .error .catSizeMismatch

/-- Whether an `Except` value carries a result. -/
def exceptOk {ε α : Type _} : Except ε α → Bool
  | .ok _ => true
  | .error _ => false

/-- A source sequence of length zero (batch 1, 4 channels). -/
def srcEmptyT3 : T3 := ⟨1, 0, 4, fun _ _ _ => 0⟩

/-- A target sequence of length one (batch 1, 4 channels). -/
def tgtOneT3 : T3 := ⟨1, 1, 4, fun _ _ _ => 0⟩

/-! ### Residual layer construction (`_ResLayer.__init__`, resnet6.py:97-134) -/

/-- The configuration fields read by `_ResLayer.__init__`. -/
structure ConvArgs where
  kernel_size : ℕ
  conv_stride : ℕ
  source_dilation : ℕ
  target_dilation : ℕ
  maintain_resolution : ℕ

/-- Construction-time failure of `_ResLayer.__init__`. -/
inductive InitError where
  | strideResolution
deriving DecidableEq, Repr

/-- Models the padding computation of `_ResLayer.__init__`
(resnet6.py lines 102-116): with `maintain_resolution` truthy a stride
different from 1 raises `ValueError` before any parameter is created,
otherwise the per-axis padding is `dilation * (kernel_size - 1) // 2`;
with `maintain_resolution` falsy the source axis gets no padding. -/
def resLayerPadding (a : ConvArgs) : Except InitError (ℕ × ℕ) :=
  if a.maintain_resolution ≠ 0 then
    if a.conv_stride ≠ 1 then .error .strideResolution
    else .ok (a.target_dilation * (a.kernel_size - 1) / 2,
              a.source_dilation * (a.kernel_size - 1) / 2)
  else .ok (a.target_dilation * (a.kernel_size - 1) / 2, 0)

/-! ### Causal masked convolution

`fairseq.modules.MaskedConvolution` is not part of the snapshot, so the
convolution itself is modelled from the specification (section 4.2): a 2D
convolution whose value at (target `t`, source `j`) depends only on target
positions `≤ t` (always) and, with the default `double_masked = True`, only
on source positions `≤ j`; positions outside the grid contribute zero
(asymmetric causal padding).  Dilation 1 on both axes (the default), one
kernel extent `ker` for both axes, `conv_bias = False` (default). -/

/-- Zero-padded grid access at possibly negative / out-of-range indices. -/
def padGet {S C : ℕ} (x : Grid S C) (t j : ℤ) (c : Fin C) : ℤ :=
  if h : 0 ≤ t ∧ 0 ≤ j ∧ j < (S : ℤ) then
    x t.toNat ⟨j.toNat, by omega⟩ c
  else 0

/-- Modelled from the spec: the full-grid (non-cached) causal masked 2D
convolution of `fairseq.modules.MaskedConvolution`.  The output at
(target `t`, source `j`) reads input rows `t + 1 - ker .. t` and source
columns `j + 1 - ker .. j` only. -/
def mconv2 {S Cmid C ker : ℕ} (w : Fin C → Fin Cmid → Fin ker → Fin ker → ℤ)
    (x : Grid S Cmid) (t : ℕ) (j : Fin S) (co : Fin C) : ℤ :=
  ∑ a : Fin ker, ∑ b : Fin ker, ∑ ci : Fin Cmid,
    w co ci a b * padGet x ((t : ℤ) + (a : ℕ) + 1 - ker) ((j : ℤ) + (b : ℕ) + 1 - ker) ci

/-! ### Residual layer (`_ResLayer`, resnet6.py:89-197) -/

/-- Parameters of one `_ResLayer`: the 1×1 channel-reduction convolution
`conv1` (bias=False), the masked convolution `mconv2` weights `w2`, and the
position-wise feed-forward sublayer `fc1`/`fc2`.  `self.scale = 1.` in the
source, so the scale factor is omitted. -/
structure ResLayerP (C Cmid ffn ker : ℕ) where
  conv1 : Fin Cmid → Fin C → ℤ
  w2 : Fin C → Fin Cmid → Fin ker → Fin ker → ℤ
  fc1w : Fin ffn → Fin C → ℤ
  fc1b : Fin ffn → ℤ
  fc2w : Fin C → Fin ffn → ℤ
  fc2b : Fin C → ℤ

/-- `x = self.conv1(x)`: the 1×1 convolution applied position-wise. -/
def conv1Apply {S C Cmid : ℕ} (w : Fin Cmid → Fin C → ℤ) (x : Grid S C) : Grid S Cmid :=
  fun t j cm => ∑ c, w cm c * x t j c

/-- `x = self.mconv2(x, ...)` followed by the training-mode zeroing of
padding positions (resnet6.py lines 176-181): when `training` is set, the
convolution output is `masked_fill`ed to 0 at source-padding columns
(`encoder_mask`) and target-padding rows (`decoder_mask`); in eval /
incremental-inference mode the two fills are skipped. -/
def maskedConvPart {S C Cmid ffn ker : ℕ} (p : ResLayerP C Cmid ffn ker)
    (training : Bool) (encM decM : Option (ℕ → Bool)) (x : Grid S C)
    (t : ℕ) (j : Fin S) (c : Fin C) : ℤ :=
  let y := mconv2 p.w2 (conv1Apply p.conv1 x) t j c
  if training then
    let y1 := match encM with
      | some m => if m (j : ℕ) then 0 else y
      | none => y
    match decM with
    | some m => if m t then 0 else y1
    | none => y1
  else y

/-- The feed-forward sublayer `fc2(relu(fc1 v))` of `_ResLayer`. -/
def ffnApply {C Cmid ffn ker : ℕ} (p : ResLayerP C Cmid ffn ker) (v : Fin C → ℤ)
    (c : Fin C) : ℤ :=
  (∑ f, p.fc2w c f * max (∑ c2, p.fc1w f c2 * v c2 + p.fc1b f) 0) + p.fc2b c

/-- `_ResLayer.forward` (dropout is the identity outside training, and the
claims quantify over the dropout-free computation): masked convolution of
the 1×1-reduced input, zeroing of padding positions in training mode,
additive residual, then the feed-forward sublayer with its own residual. -/
def resLayer {S C Cmid ffn ker : ℕ} (p : ResLayerP C Cmid ffn ker)
    (training : Bool) (encM decM : Option (ℕ → Bool)) (x : Grid S C) : Grid S C :=
  fun t j c =>
    let mid : Fin C → ℤ := fun c2 => maskedConvPart p training encM decM x t j c2 + x t j c2
    ffnApply p mid c + mid c

/-! ### Residual network (`ResNet6`, resnet6.py:24-86) -/

/-- A linear map with bias (`Linear` of resnet6.py / attn2d_dynamic_ll.py). -/
structure LinP (In Out : ℕ) where
  w : Fin Out → Fin In → ℤ
  b : Fin Out → ℤ

/-- Application of a linear map to a channel vector. -/
def linApply {In Out : ℕ} (p : LinP In Out) (v : Fin In → ℤ) (o : Fin Out) : ℤ :=
  ∑ i, p.w o i * v i + p.b o

/-- `ResNet6.forward`: the channel-reduction projection `reduce_channels`
followed by the residual blocks in order.  (The source skips the projection
when `divide_channels = 1`; that branch is the special case where `red` is
the identity matrix with zero bias.) -/
def resNet6 {S C0 C Cmid ffn ker : ℕ} (red : LinP C0 C)
    (layers : List (ResLayerP C Cmid ffn ker)) (training : Bool)
    (encM decM : Option (ℕ → Bool)) (x : Grid S C0) : Grid S C :=
  layers.foldl (fun g p => resLayer p training encM decM g)
    (fun t j c => linApply red (x t j) c)

/-! ### Incremental (cached) mode

Modelled from the spec (section 4.2, incremental contract): in cached mode
the convolution receives only the newest target row, concatenates it to the
held-over cache (the last `kernel_size − 1` input rows), convolves the
bottom-aligned window, writes back the updated tail as the new cache and
returns only the new output row.  The cache of a decoding session starts
empty and is appended to once per step. -/

/-- Zero-padded access into the bottom-aligned window of cached rows. -/
def windowGet {S C : ℕ} (w : List (Fin S → Fin C → ℤ)) (i j : ℤ) (c : Fin C) : ℤ :=
  if h : 0 ≤ i ∧ i < (w.length : ℤ) ∧ 0 ≤ j ∧ j < (S : ℤ) then
    w.get ⟨i.toNat, by omega⟩ ⟨j.toNat, by omega⟩ c
  else 0

/-- Convolve the bottom-aligned window: kernel row `a` reads window entry
`length − ker + a`, entries above the window (older than the cache) are the
zero padding of the full-mode convolution. -/
def mconvWindow {S Cmid C ker : ℕ} (w : Fin C → Fin Cmid → Fin ker → Fin ker → ℤ)
    (win : List (Fin S → Fin Cmid → ℤ)) (j : Fin S) (co : Fin C) : ℤ :=
  ∑ a : Fin ker, ∑ b : Fin ker, ∑ ci : Fin Cmid,
    w co ci a b * windowGet win ((win.length : ℤ) - ker + (a : ℕ)) ((j : ℤ) + (b : ℕ) + 1 - ker) ci

/-- Modelled from the spec: one cached step of `MaskedConvolution`.
Concatenates the new input row to the cache, convolves, and keeps the last
`ker − 1` input rows as the new cache. -/
def mconvStep {S Cmid C ker : ℕ} (w : Fin C → Fin Cmid → Fin ker → Fin ker → ℤ)
    (cache : List (Fin S → Fin Cmid → ℤ)) (newRow : Fin S → Fin Cmid → ℤ) :
    (Fin S → Fin C → ℤ) × List (Fin S → Fin Cmid → ℤ) :=
  let win := cache ++ [newRow]
  (fun j co => mconvWindow w win j co, win.drop (win.length - (ker - 1)))

/-- One incremental step of `_ResLayer.forward` (eval mode, as during
decoding): 1×1 reduction of the new row, cached masked convolution,
residual, feed-forward sublayer, residual.  Returns the new output row and
the layer's updated cache. -/
def resLayerStep {S C Cmid ffn ker : ℕ} (p : ResLayerP C Cmid ffn ker)
    (cache : List (Fin S → Fin Cmid → ℤ)) (row : Fin S → Fin C → ℤ) :
    (Fin S → Fin C → ℤ) × List (Fin S → Fin Cmid → ℤ) :=
  let u : Fin S → Fin Cmid → ℤ := fun j cm => ∑ c, p.conv1 cm c * row j c
  let yc := mconvStep p.w2 cache u
  let mid : Fin S → Fin C → ℤ := fun j c => yc.1 j c + row j c
  (fun j c => ffnApply p (mid j) c + mid j c, yc.2)

/-- One incremental step through the whole residual stack: each layer
consumes its own cache slot and passes its new output row to the next
layer (`ResNet6.forward` with `incremental_state`). -/
def stackStep {S C Cmid ffn ker : ℕ} :
    List (ResLayerP C Cmid ffn ker) → List (List (Fin S → Fin Cmid → ℤ)) →
    (Fin S → Fin C → ℤ) → (Fin S → Fin C → ℤ) × List (List (Fin S → Fin Cmid → ℤ))
  | [], _, r => (r, [])
  | p :: ps, cs, r =>
    let rc := resLayerStep p (cs.headD []) r
    let rest := stackStep ps cs.tail rc.1
    (rest.1, rc.2 :: rest.2)

/-- One incremental step of the whole network: channel reduction of the new
grid row, then the residual stack with its caches. -/
def netStep {S C0 C Cmid ffn ker : ℕ} (red : LinP C0 C)
    (layers : List (ResLayerP C Cmid ffn ker))
    (caches : List (List (Fin S → Fin Cmid → ℤ))) (row : Fin S → Fin C0 → ℤ) :
    (Fin S → Fin C → ℤ) × List (List (Fin S → Fin Cmid → ℤ)) :=
  stackStep layers caches (fun j c => linApply red (row j) c)

/-- The incremental decoding session: caches start empty, step `t` feeds
grid row `t` and threads the updated caches into step `t+1`.  The first
component is the single output row produced at step `t`. -/
def netRun {S C0 C Cmid ffn ker : ℕ} (red : LinP C0 C)
    (layers : List (ResLayerP C Cmid ffn ker)) (x : Grid S C0) :
    ℕ → (Fin S → Fin C → ℤ) × List (List (Fin S → Fin Cmid → ℤ))
  | 0 => netStep red layers [] (x 0)
  | t + 1 => netStep red layers (netRun red layers x t).2 (x (t + 1))

/-- The grid consisting of the first `n` target rows of `x` (rows `≥ n`
replaced by zeros), i.e. the grid built from a length-`n` target prefix. -/
def truncGrid {S C : ℕ} (x : Grid S C) (n : ℕ) : Grid S C :=
  fun t => if t < n then x t else fun _ _ => 0

/-- The last `k` of the first `n` rows of a row stream, oldest first:
the expected cache contents after `n` rows have been consumed. -/
def lastRows {S C : ℕ} (u : Grid S C) (n k : ℕ) : List (Fin S → Fin C → ℤ) :=
  ((List.range n).drop (n - k)).map u

/-- The caches every layer of the stack is expected to hold after `n`
incremental steps: layer by layer, the last `ker − 1` rows of that layer's
convolution input (the 1×1-reduced output of the previous layer). -/
def expectedCaches {S C Cmid ffn ker : ℕ} :
    List (ResLayerP C Cmid ffn ker) → Grid S C → ℕ → List (List (Fin S → Fin Cmid → ℤ))
  | [], _, _ => []
  | p :: ps, g, n =>
    lastRows (conv1Apply p.conv1 g) n (ker - 1) ::
      expectedCaches ps (resLayer p false none none g) n

/-! ### Decoder pipeline (`Attn2dDecoder`, attn2d_dynamic_ll.py:254-492) -/

/-- `x, _ = x.max(dim=2)` (attn2d_dynamic_ll.py:397): the maximum of a row
of values over the source axis, defined for a non-empty source extent
(torch raises on reducing an empty dimension). -/
def rowMax {S : ℕ} (hS : 0 < S) (f : Fin S → ℤ) : ℤ :=
  ((List.finRange S).map f).foldl max (f ⟨0, hS⟩)

/-- The decoder's learned parameters downstream of the embeddings:
channel reduction, residual blocks, output projection and the final
vocabulary prediction layer. -/
structure DecoderP (Cs Ct C Cmid ffn ker outD V : ℕ) where
  red : LinP (Cs + Ct) C
  layers : List (ResLayerP C Cmid ffn ker)
  proj : LinP C outD
  pred : LinP outD V

/-- The inference-mode decoder computation downstream of the embeddings
(`Attn2dDecoder.forward`, lines 378-403, in eval mode): build the grid,
run the residual network, take the maximum over the source axis at each
target position, project, and apply the prediction layer.  The masks are
threaded through to the network exactly as in the source; eval mode
ignores them.  The returned values are the unnormalised logits, exactly
as `forward` returns them. -/
def decoderForward {S Cs Ct C Cmid ffn ker outD V : ℕ} (hS : 0 < S)
    (P : DecoderP Cs Ct C Cmid ffn ker outD V)
    (encM decM : Option (ℕ → Bool))
    (srcE : Fin S → Fin Cs → ℤ) (tgtE : ℕ → Fin Ct → ℤ) :
    ℕ → Fin V → ℤ :=
  fun i v =>
    let y := resNet6 P.red P.layers false encM decM (buildGrid srcE tgtE)
    let m : Fin C → ℤ := fun c => rowMax hS (fun j => y i j c)
    linApply P.pred (fun o => linApply P.proj m o) v

/-- Runtime failures of `Attn2dDecoder.forward`. -/
inductive ForwardErr where
  | unboundLocalSrcEmb
  | maxOfEmpty
deriving DecidableEq, Repr

/-- Models the control flow of `Attn2dDecoder.forward`
(attn2d_dynamic_ll.py:343-403): `src_emb` is bound only inside
`if context_size is not None:`, so a call with `context_size = None`
reaches `src_emb.size(1)` (line 375) with `src_emb` unbound and raises
`UnboundLocalError` before any output is produced.  With a context size
the source embeddings are sliced to the first `context_size` positions
and the pipeline runs (a zero slice would fail at `x.max(dim=2)`). -/
def attn2dDecoderForward {Cs Ct C Cmid ffn ker outD V : ℕ}
    (P : DecoderP Cs Ct C Cmid ffn ker outD V)
    (contextSize : Option ℕ) (encoderStates : ℕ → Fin Cs → ℤ)
    (tgtE : ℕ → Fin Ct → ℤ) (encM decM : Option (ℕ → Bool)) :
    Except ForwardErr (ℕ → Fin V → ℤ) :=
  match contextSize with
  | none => .error .unboundLocalSrcEmb
  | some cs =>
    if h : 0 < cs then
      .ok (decoderForward h P encM decM
        (fun j : Fin cs => encoderStates (j : ℕ)) tgtE)
    else .error .maxOfEmpty

/-- Modelled from the spec: the training-mode aggregator
`fairseq.modules.GridMAX` (`x, _ = self.aggregator(x)` keeps the per-cell
source axis for training scoring): at cell (target `t`, source `j`) the
element-wise maximum of the features over source positions `≤ j`. -/
def gridMaxTrain {S C : ℕ} (y : Grid S C) : Grid S C :=
  fun t j c =>
    ((List.finRange S).filter (fun j2 => j2 ≤ j)).foldl
      (fun acc j2 => max acc (y t j2 c)) (y t j c)

/-- `utils.log_softmax(x, dim=-1)` over the vocabulary axis, modelled over
the reals. -/
noncomputable def logSoftmax {V : ℕ} (x : Fin V → ℝ) : Fin V → ℝ :=
  fun v => x v - Real.log (∑ u, Real.exp (x u))

/-- The training-scoring pipeline of `Attn2dDecoder.forward_train`
(lines 444-476) up to the prediction layer: grid, residual network in
training mode with the padding masks, per-cell aggregation, projection,
prediction.  Per-cell integer logits. -/
def forwardTrainLogits {S Cs Ct C Cmid ffn ker outD V : ℕ}
    (P : DecoderP Cs Ct C Cmid ffn ker outD V)
    (encM decM : Option (ℕ → Bool))
    (srcE : Fin S → Fin Cs → ℤ) (tgtE : ℕ → Fin Ct → ℤ) :
    ℕ → Fin S → Fin V → ℤ :=
  fun i j v =>
    let y := resNet6 P.red P.layers true encM decM (buildGrid srcE tgtE)
    let g := gridMaxTrain y
    linApply P.pred (fun o => linApply P.proj (fun c => g i j c) o) v

/-- `x = utils.log_softmax(x, dim=-1)` (line 477): the per-cell
log-probabilities returned by `forward_train`. -/
noncomputable def forwardTrainLP {S Cs Ct C Cmid ffn ker outD V : ℕ}
    (P : DecoderP Cs Ct C Cmid ffn ker outD V)
    (encM decM : Option (ℕ → Bool))
    (srcE : Fin S → Fin Cs → ℤ) (tgtE : ℕ → Fin Ct → ℤ) :
    ℕ → Fin S → Fin V → ℝ :=
  fun i j => logSoftmax (fun v => ((forwardTrainLogits P encM decM srcE tgtE i j v : ℤ) : ℝ))

/-! ### Read/write oracle (controller training labels)

`fairseq.modules.LLControls` is not part of the snapshot; the label
derivation is modelled from the specification (section 4.6): per target
position, the boundary is the first source position beyond which consuming
more source context no longer improves the likelihood by more than the
oracle penalty; the walk moves the boundary monotonically to the right
(a read/write action sequence is a monotone path through the grid).
Cells before the boundary are labelled "read", the boundary cell and
everything after it "write". -/

/-- Whether writing at source position `j` is already good enough: no
strictly later source position improves the score by more than `pen`. -/
def wantWriteB {S : ℕ} (row : Fin S → ℤ) (pen : ℤ) (j : Fin S) : Bool :=
  decide (∀ j2 : Fin S, j < j2 → row j2 ≤ row j + pen)

/-- The per-row boundary: the first source position at which writing is
good enough (the last position always qualifies, so for `S > 0` this is
`< S`). -/
def rowBoundaryN {S : ℕ} (row : Fin S → ℤ) (pen : ℤ) : ℕ :=
  (List.finRange S).findIdx (fun j => wantWriteB row pen j)

/-- The oracle walk: the boundary of target row `t+1` never moves left of
the boundary of row `t`. -/
def boundaries {S : ℕ} (scores : ℕ → Fin S → ℤ) (pen : ℤ) : ℕ → ℕ
  | 0 => rowBoundaryN (scores 0) pen
  | t + 1 => max (boundaries scores pen t) (rowBoundaryN (scores (t + 1)) pen)

/-- Read label of cell (target `t`, source `j`). -/
def readLabel {S : ℕ} (scores : ℕ → Fin S → ℤ) (pen : ℤ) (t : ℕ) (j : Fin S) : Bool :=
  decide ((j : ℕ) < boundaries scores pen t)

/-- Write label of cell (target `t`, source `j`). -/
def writeLabel {S : ℕ} (scores : ℕ → Fin S → ℤ) (pen : ℤ) (t : ℕ) (j : Fin S) : Bool :=
  decide (boundaries scores pen t ≤ (j : ℕ))

/-- The number of read labels in target row `t`. -/
def readCount {S : ℕ} (scores : ℕ → Fin S → ℤ) (pen : ℤ) (t : ℕ) : ℕ :=
  (Finset.univ.filter (fun j : Fin S => readLabel scores pen t j = true)).card

/-! ### Concrete instances used to evaluate the model on closed inputs -/

/-- A trivial grid over one target row, one source position, one channel. -/
def gridOfList {S C : ℕ} (rows : List (Fin S → Fin C → ℤ)) : Grid S C :=
  fun t => if h : t < rows.length then rows.get ⟨t, h⟩ else fun _ _ => 0

/-- The full-grid causal convolution applied to a finite list of target
rows, returning the list of output rows: the list form of `mconv2`, used
to state resolution preservation. -/
def mconvList {S Cmid C ker : ℕ} (w : Fin C → Fin Cmid → Fin ker → Fin ker → ℤ)
    (rows : List (Fin S → Fin Cmid → ℤ)) : List (Fin S → Fin C → ℤ) :=
  (List.range rows.length).map (fun t j co => mconv2 w (gridOfList rows) t j co)

/-- The all-zero linear map. -/
def zeroLin (a b : ℕ) : LinP a b := ⟨fun _ _ => 0, fun _ => 0⟩

/-- The identity linear map. -/
def idLin (n : ℕ) : LinP n n := ⟨fun o i => if o = i then 1 else 0, fun _ => 0⟩

/-- A residual layer whose weights are all zero (its convolution and
feed-forward sublayer vanish, so the layer is the identity through the
residual connections). -/
def zeroLayer (C Cmid ffn ker : ℕ) : ResLayerP C Cmid ffn ker :=
  ⟨fun _ _ => 0, fun _ _ _ _ => 0, fun _ _ => 0, fun _ => 0, fun _ _ => 0, fun _ => 0⟩

/-- A channel reduction from 2 channels to 1 that keeps channel 0 (the
source channel of a 1+1-channel grid). -/
def pickFirstLin : LinP 2 1 := ⟨fun _ i => if (i : ℕ) = 0 then 1 else 0, fun _ => 0⟩

/-- Decoder parameters for the padding-sensitivity run: source and target
embeddings of one channel each, no residual blocks, identity projection
and prediction, so the decoder output at a target position is exactly the
maximum of the source-channel values over the source axis. -/
def c3Params : DecoderP 1 1 1 1 1 1 1 1 := ⟨pickFirstLin, [], idLin 1, idLin 1⟩

/-- Source embeddings (2 source positions): all zero. -/
def c3SrcBase : Fin 2 → Fin 1 → ℤ := fun _ _ => 0

/-- The same source embeddings with the feature at the padding position 1
perturbed from 0 to 5; position 0 (the non-padding position) agrees with
`c3SrcBase`. -/
def c3SrcPerturbed : Fin 2 → Fin 1 → ℤ := fun j _ => if (j : ℕ) = 1 then 5 else 0

/-- Target embeddings: all zero. -/
def c3Tgt : ℕ → Fin 1 → ℤ := fun _ _ => 0

/-- The source padding mask marking positions `[1, 2)` as padding. -/
def c3EncMask : ℕ → Bool := fun j => decide (j = 1)

/-- All-zero decoder parameters with a vocabulary of two tokens. -/
def c4Params : DecoderP 1 1 1 1 1 1 1 2 := ⟨zeroLin 2 1, [], zeroLin 1 1, zeroLin 1 2⟩

/-! ## Theorems -/

/-- C7: the grid builder returns the `(Tt, Ts)`-indexed grid of
channel-wise concatenations: at target row `i` and source column `j`,
the first `Cs` channels are the source embedding at `j` and the next
`Ct` channels are the target embedding at `i`.  The result has channel
extent `Cs + Ct` by its type, and the builder is a pure function of the
two input sequences, so they are left unchanged. -/
theorem c7_grid_builder_content {S Cs Ct : ℕ}
    (srcE : Fin S → Fin Cs → ℤ) (tgtE : ℕ → Fin Ct → ℤ) (i : ℕ) (j : Fin S) :
    (∀ c : Fin Cs, buildGrid srcE tgtE i j (Fin.castAdd Ct c) = srcE j c) ∧
    (∀ c : Fin Ct, buildGrid srcE tgtE i j (Fin.natAdd Cs c) = tgtE i c) := by
  constructor
  · intro c
    have hc : ((Fin.castAdd Ct c : Fin (Cs + Ct)) : ℕ) < Cs := c.isLt
    simp [buildGrid, hc]
  · intro c
    have hc : ¬ ((Fin.natAdd Cs c : Fin (Cs + Ct)) : ℕ) < Cs := by simp
    simp only [buildGrid, hc, dif_neg, not_false_iff]
    congr 1
    have : ((Fin.natAdd Cs c : Fin (Cs + Ct)) : ℕ) - Cs = (c : ℕ) := by simp
    exact Fin.ext this

/-- C8 counterexample: on a zero-length source sequence (batch sizes
equal) the grid builder does not fail; torch expands the singleton
dimensions and `torch.cat` succeeds, returning an empty grid. -/
theorem c8_counterexample_zero_length :
    exceptOk (expandCat srcEmptyT3 tgtOneT3) = true := rfl

/-- C8 amended: the grid builder fails with a shape error (at the
`torch.cat` call) exactly when the source and target batch sizes differ —
it never silently broadcasts across the batch axis; a zero-length input,
however, does not fail: the expands and the concatenation succeed and an
empty grid is returned. -/
theorem c8_amended_batch_mismatch_only (src tgt : T3) :
    expandCat src tgt = .error .catSizeMismatch ↔ src.batch ≠ tgt.batch := by
  unfold expandCat
  split
  · next h => simp [h]
  · next h => simp [h]

/-- C9: with `maintain_resolution` enabled and `conv_stride ≠ 1`,
`_ResLayer.__init__` raises at construction time (before any forward
call — the failure is in the padding computation, prior to building any
parameter); with stride 1 construction succeeds, the per-axis padding is
`dilation * (kernel_size - 1) / 2`, and the causal convolution produces
exactly as many target rows as it consumes. -/
theorem c9_construction_and_resolution (a : ConvArgs) :
    (a.maintain_resolution ≠ 0 → a.conv_stride ≠ 1 →
      resLayerPadding a = .error .strideResolution) ∧
    (a.maintain_resolution ≠ 0 → a.conv_stride = 1 →
      resLayerPadding a = .ok (a.target_dilation * (a.kernel_size - 1) / 2,
        a.source_dilation * (a.kernel_size - 1) / 2) ∧
      ∀ (S Cmid C ker : ℕ) (w : Fin C → Fin Cmid → Fin ker → Fin ker → ℤ)
        (rows : List (Fin S → Fin Cmid → ℤ)),
        (mconvList w rows).length = rows.length) := by
  refine ⟨fun hres hstr => ?_, fun hres hstr => ⟨?_, ?_⟩⟩
  · simp [resLayerPadding, hres, hstr]
  · simp [resLayerPadding, hres, hstr]
  · intro S Cmid C ker w rows
    simp [mconvList]

/-- Witness for C9: a stride-2 configuration fails, the default stride-1
configuration with kernel 3 and dilations 2/3 succeeds with padding
`(2, 3)`, and the convolution preserves the number of target rows. -/
theorem c9_witness :
    resLayerPadding ⟨3, 2, 1, 1, 1⟩ = .error .strideResolution ∧
    (resLayerPadding ⟨3, 1, 3, 2, 1⟩ = .ok (2, 3) ∧
      ∀ (S Cmid C ker : ℕ) (w : Fin C → Fin Cmid → Fin ker → Fin ker → ℤ)
        (rows : List (Fin S → Fin Cmid → ℤ)),
        (mconvList w rows).length = rows.length) :=
  ⟨(c9_construction_and_resolution ⟨3, 2, 1, 1, 1⟩).1 (by decide) (by decide),
   (c9_construction_and_resolution ⟨3, 1, 3, 2, 1⟩).2 (by decide) (by decide)⟩

/-- C10: every call of `Attn2dDecoder.forward` with `context_size = None`
fails before producing any output: the branch binding `src_emb` is
skipped, so the read of `src_emb` at line 375 raises `UnboundLocalError`.
A non-None `context_size` is an unchecked precondition of the interface. -/
theorem c10_context_size_precondition {Cs Ct C Cmid ffn ker outD V : ℕ}
    (P : DecoderP Cs Ct C Cmid ffn ker outD V)
    (encoderStates : ℕ → Fin Cs → ℤ) (tgtE : ℕ → Fin Ct → ℤ)
    (encM decM : Option (ℕ → Bool)) :
    attn2dDecoderForward P none encoderStates tgtE encM decM =
      .error .unboundLocalSrcEmb := rfl

/-- C6: in training mode, the masked convolution's output is zeroed at
every source-padding column (when the source mask is supplied) and at
every target-padding row (when the target mask is supplied); in eval /
incremental-inference mode the value is the raw convolution output
whatever the masks — no zeroing is applied. -/
theorem c6_training_padding_zeroing {S C Cmid ffn ker : ℕ}
    (p : ResLayerP C Cmid ffn ker) (x : Grid S C) (t : ℕ) (j : Fin S) (c : Fin C) :
    (∀ (m : ℕ → Bool) (decM : Option (ℕ → Bool)), m (j : ℕ) = true →
      maskedConvPart p true (some m) decM x t j c = 0) ∧
    (∀ (md : ℕ → Bool) (encM : Option (ℕ → Bool)), md t = true →
      maskedConvPart p true encM (some md) x t j c = 0) ∧
    (∀ encM decM : Option (ℕ → Bool),
      maskedConvPart p false encM decM x t j c =
        mconv2 p.w2 (conv1Apply p.conv1 x) t j c) := by
  refine ⟨fun m decM hm => ?_, fun md encM hmd => ?_, fun encM decM => ?_⟩
  · cases decM <;> simp [maskedConvPart, hm]
  · cases encM <;> simp [maskedConvPart, hmd]
  · simp [maskedConvPart]

/-- Witness for C6 at a concrete layer, grid and masks. -/
theorem c6_witness :
    maskedConvPart (zeroLayer 1 1 1 1) true (some fun _ => true) none
      ((fun _ _ _ => 3) : Grid 1 1) 0 0 0 = 0 ∧
    maskedConvPart (zeroLayer 1 1 1 1) true none (some fun _ => true)
      ((fun _ _ _ => 3) : Grid 1 1) 0 0 0 = 0 ∧
    maskedConvPart (zeroLayer 1 1 1 1) false (some fun _ => true) (some fun _ => true)
      ((fun _ _ _ => 3) : Grid 1 1) 0 0 0 =
      mconv2 (zeroLayer 1 1 1 1).w2 (conv1Apply (zeroLayer 1 1 1 1).conv1
        ((fun _ _ _ => 3) : Grid 1 1)) 0 0 0 :=
  ⟨(c6_training_padding_zeroing (zeroLayer 1 1 1 1) ((fun _ _ _ => 3) : Grid 1 1) 0 0 0).1
      (fun _ => true) none rfl,
   (c6_training_padding_zeroing (zeroLayer 1 1 1 1) ((fun _ _ _ => 3) : Grid 1 1) 0 0 0).2.1
      (fun _ => true) none rfl,
   (c6_training_padding_zeroing (zeroLayer 1 1 1 1) ((fun _ _ _ => 3) : Grid 1 1) 0 0 0).2.2
      (some fun _ => true) (some fun _ => true)⟩

/-- The last source position always qualifies as a write boundary, so the
per-row boundary lies inside the row. -/
theorem rowBoundaryN_lt {S : ℕ} (hS : 0 < S) (row : Fin S → ℤ) (pen : ℤ) :
    rowBoundaryN row pen < S := by
  have hmem : ∃ j ∈ List.finRange S, wantWriteB row pen j = true := by
    refine ⟨⟨S - 1, by omega⟩, List.mem_finRange _, ?_⟩
    simp only [wantWriteB, decide_eq_true_eq]
    intro j2 hj2
    exfalso
    have h1 : (j2 : ℕ) < S := j2.isLt
    simp only [Fin.lt_def] at hj2
    omega
  calc rowBoundaryN row pen < (List.finRange S).length :=
        List.findIdx_lt_length_of_exists hmem
    _ = S := List.length_finRange S

/-- The oracle boundary always lies inside the row. -/
theorem boundaries_lt {S : ℕ} (hS : 0 < S) (scores : ℕ → Fin S → ℤ) (pen : ℤ) :
    ∀ t, boundaries scores pen t < S := by
  intro t
  induction t with
  | zero => exact rowBoundaryN_lt hS _ _
  | succ t ih => exact max_lt ih (rowBoundaryN_lt hS _ _)

/-- C5: the oracle-derived read-label count per target position is
non-decreasing in the target position, and every target position carries
at least one write label (in particular every non-empty, non-padding
one — the property holds unconditionally). -/
theorem c5_oracle_labels {S : ℕ} (hS : 0 < S) (scores : ℕ → Fin S → ℤ) (pen : ℤ) :
    Monotone (readCount scores pen) ∧
    ∀ t : ℕ, ∃ j : Fin S, writeLabel scores pen t j = true := by
  constructor
  · apply monotone_nat_of_le_succ
    intro t
    apply Finset.card_le_card
    intro j hj
    simp only [Finset.mem_filter, Finset.mem_univ, true_and, readLabel,
      decide_eq_true_eq] at hj ⊢
    have hle : boundaries scores pen t ≤ boundaries scores pen (t + 1) := by
      simp only [boundaries]
      exact le_max_left _ _
    omega
  · intro t
    refine ⟨⟨S - 1, by omega⟩, ?_⟩
    simp only [writeLabel, decide_eq_true_eq]
    have := boundaries_lt hS scores pen t
    omega

/-- Witness for C5 on a one-position source row with zero scores. -/
theorem c5_witness :
    Monotone (readCount (fun _ (_ : Fin 1) => (0 : ℤ)) 0) ∧
    ∀ t : ℕ, ∃ j : Fin 1, writeLabel (fun _ (_ : Fin 1) => (0 : ℤ)) 0 t j = true :=
  c5_oracle_labels (by decide) (fun _ _ => 0) 0

/-- Zero-padded access agrees on two grids that agree up to row `T`. -/
theorem padGet_congr {S C : ℕ} {x x' : Grid S C} {T : ℕ} (h : ∀ t ≤ T, x t = x' t)
    {t : ℤ} (ht : t ≤ (T : ℤ)) (j : ℤ) (c : Fin C) : padGet x t j c = padGet x' t j c := by
  unfold padGet
  split
  · next hc =>
    have htn : t.toNat ≤ T := by omega
    rw [h t.toNat htn]
  · rfl

/-- Target causality of the masked convolution: the output at row `t`
only depends on input rows `≤ t`. -/
theorem mconv2_causal {S Cmid C ker : ℕ} (w : Fin C → Fin Cmid → Fin ker → Fin ker → ℤ)
    {x x' : Grid S Cmid} {T : ℕ} (h : ∀ t ≤ T, x t = x' t) {t : ℕ} (ht : t ≤ T)
    (j : Fin S) (co : Fin C) : mconv2 w x t j co = mconv2 w x' t j co := by
  unfold mconv2
  refine Finset.sum_congr rfl fun a _ => Finset.sum_congr rfl fun b _ =>
    Finset.sum_congr rfl fun ci _ => ?_
  congr 1
  apply padGet_congr h
  have := a.isLt
  omega

/-- Target causality of the masked-and-filled convolution stage. -/
theorem maskedConvPart_causal {S C Cmid ffn ker : ℕ} (p : ResLayerP C Cmid ffn ker)
    (training : Bool) (encM decM : Option (ℕ → Bool)) {x x' : Grid S C} {T : ℕ}
    (h : ∀ t ≤ T, x t = x' t) {t : ℕ} (ht : t ≤ T) (j : Fin S) (c : Fin C) :
    maskedConvPart p training encM decM x t j c =
      maskedConvPart p training encM decM x' t j c := by
  have hc : ∀ t2, t2 ≤ T → conv1Apply p.conv1 x t2 = conv1Apply p.conv1 x' t2 := by
    intro t2 ht2
    funext j2 cm
    unfold conv1Apply
    rw [h t2 ht2]
  have hm := mconv2_causal p.w2 hc ht j c
  simp only [maskedConvPart, hm]

/-- Target causality of one residual layer. -/
theorem resLayer_causal {S C Cmid ffn ker : ℕ} (p : ResLayerP C Cmid ffn ker)
    (training : Bool) (encM decM : Option (ℕ → Bool)) {x x' : Grid S C} {T : ℕ}
    (h : ∀ t ≤ T, x t = x' t) : ∀ t ≤ T,
      resLayer p training encM decM x t = resLayer p training encM decM x' t := by
  intro t ht
  funext j c
  have hA : ∀ c2 : Fin C,
      maskedConvPart p training encM decM x t j c2 + x t j c2 =
      maskedConvPart p training encM decM x' t j c2 + x' t j c2 := by
    intro c2
    rw [maskedConvPart_causal p training encM decM h ht j c2, h t ht]
  simp only [resLayer, hA]

/-- In eval mode a residual layer ignores both padding masks. -/
theorem resLayer_eval_masks {S C Cmid ffn ker : ℕ} (p : ResLayerP C Cmid ffn ker)
    (e d e' d' : Option (ℕ → Bool)) (x : Grid S C) :
    resLayer p false e d x = resLayer p false e' d' x := by
  funext t j c
  simp [resLayer, maskedConvPart]

/-- Target causality of the folded residual stack. -/
theorem foldLayers_causal {S C Cmid ffn ker : ℕ} (training : Bool)
    (encM decM : Option (ℕ → Bool)) :
    ∀ (layers : List (ResLayerP C Cmid ffn ker)) {x x' : Grid S C} {T : ℕ},
      (∀ t ≤ T, x t = x' t) → ∀ t ≤ T,
      List.foldl (fun g p => resLayer p training encM decM g) x layers t =
      List.foldl (fun g p => resLayer p training encM decM g) x' layers t := by
  intro layers
  induction layers with
  | nil => intro x x' T h t ht; exact h t ht
  | cons p ps ih =>
    intro x x' T h t ht
    simp only [List.foldl_cons]
    exact ih (resLayer_causal p training encM decM h) t ht

/-- Target causality of the whole residual network: if two grids agree on
rows `≤ T`, the network outputs agree on rows `≤ T`. -/
theorem resNet6_causal {S C0 C Cmid ffn ker : ℕ} (red : LinP C0 C)
    (layers : List (ResLayerP C Cmid ffn ker)) (training : Bool)
    (encM decM : Option (ℕ → Bool)) {x x' : Grid S C0} {T : ℕ}
    (h : ∀ t ≤ T, x t = x' t) : ∀ t ≤ T,
      resNet6 red layers training encM decM x t =
      resNet6 red layers training encM decM x' t := by
  have hred : ∀ t ≤ T,
      (fun t2 (j : Fin S) (c : Fin C) => linApply red (x t2 j) c) t =
      (fun t2 (j : Fin S) (c : Fin C) => linApply red (x' t2 j) c) t := by
    intro t ht
    funext j c
    simp only
    rw [h t ht]
  exact foldLayers_causal training encM decM layers hred

/-- In eval mode the folded residual stack ignores both padding masks. -/
theorem foldLayers_eval_masks {S C Cmid ffn ker : ℕ} :
    ∀ (layers : List (ResLayerP C Cmid ffn ker)) (e d e' d' : Option (ℕ → Bool))
      (x : Grid S C),
      List.foldl (fun g p => resLayer p false e d g) x layers =
      List.foldl (fun g p => resLayer p false e' d' g) x layers := by
  intro layers
  induction layers with
  | nil => intros; rfl
  | cons p ps ih =>
    intro e d e' d' x
    simp only [List.foldl_cons]
    rw [resLayer_eval_masks p e d e' d' x]
    exact ih e d e' d' _

/-- In eval mode the whole residual network ignores both padding masks. -/
theorem resNet6_eval_masks {S C0 C Cmid ffn ker : ℕ} (red : LinP C0 C)
    (layers : List (ResLayerP C Cmid ffn ker)) (e d e' d' : Option (ℕ → Bool))
    (x : Grid S C0) :
    resNet6 red layers false e d x = resNet6 red layers false e' d' x := by
  unfold resNet6
  exact foldLayers_eval_masks layers e d e' d' _

/-- C2: the decoder output at target position `p ≤ i` is the same for any
two runs that agree on the target embeddings at positions `≤ i`, whatever
the target tokens (and hence the target padding mask) beyond `i` are.  In
particular the output at position `i` computed from a target prefix of
length `i+1` equals the one extracted from any longer grid. -/
theorem c2_future_target_independence {S Cs Ct C Cmid ffn ker outD V : ℕ}
    (hS : 0 < S) (P : DecoderP Cs Ct C Cmid ffn ker outD V)
    (encM decM decM' : Option (ℕ → Bool))
    (srcE : Fin S → Fin Cs → ℤ) (tgtE tgtE' : ℕ → Fin Ct → ℤ)
    (i p : ℕ) (hp : p ≤ i)
    (hagree : ∀ q ≤ i, tgtE q = tgtE' q) (v : Fin V) :
    decoderForward hS P encM decM srcE tgtE p v =
      decoderForward hS P encM decM' srcE tgtE' p v := by
  have hgrid : ∀ t ≤ i, buildGrid srcE tgtE t = buildGrid srcE tgtE' t := by
    intro t ht
    funext j c
    unfold buildGrid
    split
    · rfl
    · rw [hagree t ht]
  have hy : resNet6 P.red P.layers false encM decM (buildGrid srcE tgtE) p =
      resNet6 P.red P.layers false encM decM' (buildGrid srcE tgtE') p := by
    rw [resNet6_eval_masks P.red P.layers encM decM encM decM' (buildGrid srcE tgtE)]
    exact resNet6_causal P.red P.layers false encM decM' hgrid p hp
  simp only [decoderForward]
  rw [hy]

/-- Witness for C2: changing the target embedding at position 1 (and the
target padding mask) does not change the output at position 0. -/
theorem c2_witness :
    decoderForward (Nat.succ_pos 1) c3Params none none c3SrcBase c3Tgt 0 0 =
      decoderForward (Nat.succ_pos 1) c3Params none (some fun _ => true) c3SrcBase
        (fun q _ => if q = 0 then 0 else 7) 0 0 :=
  c2_future_target_independence (Nat.succ_pos 1) c3Params none none
    (some fun _ => true) c3SrcBase c3Tgt (fun q _ => if q = 0 then 0 else 7) 0 0
    le_rfl
    (fun q hq => by
      funext c
      have hq0 : q = 0 := Nat.le_zero.mp hq
      subst hq0
      simp [c3Tgt])
    0

/-- Length of the cached tail. -/
theorem length_lastRows {S C : ℕ} (u : Grid S C) (n k : ℕ) :
    (lastRows u n k).length = n - (n - k) := by
  simp [lastRows]

/-- Entries of the cached tail: index `i` holds row `(n - k) + i`. -/
theorem get_lastRows {S C : ℕ} (u : Grid S C) (n k i : ℕ)
    (h : i < (lastRows u n k).length) :
    (lastRows u n k).get ⟨i, h⟩ = u ((n - k) + i) := by
  simp [lastRows]

/-- Appending the new row to the cached tail yields the last `k` of the
first `t+1` rows. -/
theorem window_eq_lastRows {S C : ℕ} {k : ℕ} (hk : 0 < k) (u : Grid S C) (t : ℕ) :
    lastRows u t (k - 1) ++ [u t] = lastRows u (t + 1) k := by
  unfold lastRows
  rw [List.range_succ,
      List.drop_append_of_le_length (by rw [List.length_range]; omega),
      List.map_append]
  have harg : t + 1 - k = t - (k - 1) := by omega
  rw [harg]
  rfl

/-- Convolving the bottom-aligned window of the last `ker` rows agrees
with the full-grid causal convolution at row `t`. -/
theorem mconvWindow_eq {S Cmid C ker : ℕ} (w : Fin C → Fin Cmid → Fin ker → Fin ker → ℤ)
    (u : Grid S Cmid) (t : ℕ) (j : Fin S) (co : Fin C) :
    mconvWindow w (lastRows u (t + 1) ker) j co = mconv2 w u t j co := by
  unfold mconvWindow mconv2
  refine Finset.sum_congr rfl fun a _ => Finset.sum_congr rfl fun b _ =>
    Finset.sum_congr rfl fun ci _ => ?_
  congr 1
  have ha := a.isLt
  have hL := length_lastRows u (t + 1) ker
  unfold windowGet padGet
  split
  · next h1 =>
    split
    · next h2 =>
      rw [get_lastRows]
      have hidx : (t + 1 - ker) + (((lastRows u (t + 1) ker).length : ℤ) - ker + (a : ℕ)).toNat
          = ((t : ℤ) + (a : ℕ) + 1 - ker).toNat := by omega
      rw [hidx]
    · next h2 =>
      exact absurd ⟨by omega, h1.2.2.1, h1.2.2.2⟩ h2
  · next h1 =>
    split
    · next h2 =>
      exact absurd ⟨by omega, by omega, h2.2.1, h2.2.2⟩ h1
    · rfl

/-- One cached convolution step from the expected cache state: the output
row is the full-grid convolution at row `t` and the cache advances. -/
theorem mconvStep_eq {S Cmid C ker : ℕ} (hk : 0 < ker)
    (w : Fin C → Fin Cmid → Fin ker → Fin ker → ℤ) (u : Grid S Cmid) (t : ℕ) :
    mconvStep w (lastRows u t (ker - 1)) (u t) =
      (fun j co => mconv2 w u t j co, lastRows u (t + 1) (ker - 1)) := by
  unfold mconvStep
  rw [window_eq_lastRows hk u t]
  have hL := length_lastRows u (t + 1) ker
  simp only [Prod.mk.injEq]
  refine ⟨?_, ?_⟩
  · funext j co
    exact mconvWindow_eq w u t j co
  · apply List.ext_getElem
    · simp [lastRows]
      omega
    · intro i h1 h2
      simp only [lastRows, List.getElem_drop, List.getElem_map, List.getElem_range,
        List.length_drop, List.length_map, List.length_range] at h1 h2 ⊢
      exact congrArg u (by omega)

/-- One residual-layer step from the expected cache state produces the
full-mode layer output row and the advanced cache. -/
theorem resLayerStep_eq {S C Cmid ffn ker : ℕ} (hk : 0 < ker)
    (p : ResLayerP C Cmid ffn ker) (g : Grid S C) (t : ℕ) :
    resLayerStep p (lastRows (conv1Apply p.conv1 g) t (ker - 1)) (g t) =
      (resLayer p false none none g t,
        lastRows (conv1Apply p.conv1 g) (t + 1) (ker - 1)) := by
  have h1 : (fun (j : Fin S) (cm : Fin Cmid) => ∑ c, p.conv1 cm c * g t j c)
      = conv1Apply p.conv1 g t := rfl
  simp only [resLayerStep, h1, mconvStep_eq hk p.w2 (conv1Apply p.conv1 g) t]
  refine Prod.ext ?_ rfl
  funext j c
  simp [resLayer, maskedConvPart]

/-- After zero steps every expected cache is empty. -/
theorem expectedCaches_zero {S C Cmid ffn ker : ℕ} :
    ∀ (ps : List (ResLayerP C Cmid ffn ker)) (g : Grid S C),
      expectedCaches ps g 0 = ps.map (fun _ => []) := by
  intro ps
  induction ps with
  | nil => intro g; rfl
  | cons p ps ih =>
    intro g
    simp [expectedCaches, lastRows, ih]

/-- Starting a stack step with no cache list behaves like starting it with
one empty cache per layer. -/
theorem stackStep_nil_caches {S C Cmid ffn ker : ℕ} :
    ∀ (ps : List (ResLayerP C Cmid ffn ker)) (r : Fin S → Fin C → ℤ),
      stackStep ps [] r = stackStep ps (ps.map fun _ => []) r := by
  intro ps
  induction ps with
  | nil => intro r; rfl
  | cons p ps ih =>
    intro r
    simp only [stackStep, List.headD_nil, List.headD_cons, List.tail_nil,
      List.tail_cons, List.map_cons]
    rw [ih]

/-- One incremental step through the stack, starting from the expected
caches after `t` steps, produces the full-mode stack output row `t` and
the expected caches after `t+1` steps. -/
theorem stackStep_eq {S C Cmid ffn ker : ℕ} (hk : 0 < ker) :
    ∀ (ps : List (ResLayerP C Cmid ffn ker)) (g : Grid S C) (t : ℕ),
      stackStep ps (expectedCaches ps g t) (g t) =
        (List.foldl (fun h p => resLayer p false none none h) g ps t,
          expectedCaches ps g (t + 1)) := by
  intro ps
  induction ps with
  | nil => intro g t; rfl
  | cons p ps ih =>
    intro g t
    simp only [stackStep, expectedCaches, List.headD_cons, List.tail_cons,
      List.foldl_cons]
    rw [resLayerStep_eq hk p g t]
    rw [ih (resLayer p false none none g) t]

/-- The incremental session state after step `t`: the output row is the
full-mode network output at row `t` and every layer holds its expected
cache. -/
theorem netRun_eq {S C0 C Cmid ffn ker : ℕ} (hk : 0 < ker) (red : LinP C0 C)
    (layers : List (ResLayerP C Cmid ffn ker)) (x : Grid S C0) :
    ∀ t, netRun red layers x t =
      (resNet6 red layers false none none x t,
        expectedCaches layers (fun t2 (j : Fin S) (c : Fin C) => linApply red (x t2 j) c)
          (t + 1)) := by
  intro t
  induction t with
  | zero =>
    show netStep red layers [] (x 0) = _
    unfold netStep
    rw [stackStep_nil_caches,
      ← expectedCaches_zero layers (fun t2 (j : Fin S) (c : Fin C) => linApply red (x t2 j) c)]
    exact stackStep_eq hk layers (fun t2 j c => linApply red (x t2 j) c) 0
  | succ t ih =>
    show netStep red layers (netRun red layers x t).2 (x (t + 1)) = _
    rw [ih]
    unfold netStep
    exact stackStep_eq hk layers (fun t2 j c => linApply red (x t2 j) c) (t + 1)

/-- C1: the cached incremental run of the residual convolution stack
produces at step `k` exactly the row the full-sequence non-cached forward
pass computes at row `k` on the grid of the first `k+1` target positions
(its last row); the equality is exact, so it holds in particular within
any floating-point tolerance. -/
theorem c1_incremental_equals_full {S C0 C Cmid ffn ker : ℕ} (hk : 0 < ker)
    (red : LinP C0 C) (layers : List (ResLayerP C Cmid ffn ker)) (x : Grid S C0)
    (k : ℕ) (j : Fin S) (c : Fin C) :
    (netRun red layers x k).1 j c =
      resNet6 red layers false none none (truncGrid x (k + 1)) k j c := by
  rw [netRun_eq hk red layers x k]
  have hagree : ∀ t ≤ k, x t = truncGrid x (k + 1) t := by
    intro t ht
    simp [truncGrid, Nat.lt_succ_of_le ht]
  have h := resNet6_causal red layers false none none hagree k le_rfl
  show resNet6 red layers false none none x k j c = _
  rw [h]

/-- Witness for C1 at kernel size 1, one zero layer, a constant grid. -/
theorem c1_witness :
    0 < 1 ∧
    (netRun (idLin 1) [zeroLayer 1 1 1 1] ((fun _ _ _ => 2) : Grid 1 1) 0).1 0 0 =
      resNet6 (idLin 1) [zeroLayer 1 1 1 1] false none none
        (truncGrid ((fun _ _ _ => 2) : Grid 1 1) 1) 0 0 0 :=
  ⟨Nat.one_pos,
   c1_incremental_equals_full Nat.one_pos (idLin 1) [zeroLayer 1 1 1 1]
     ((fun _ _ _ => 2) : Grid 1 1) 0 0 0⟩

/-- C3 (failing-input evaluation): in inference mode the source padding
mask marks positions `[1, 2)` as padding and position 0 is non-padding,
yet perturbing the feature value at the padding position (from 0 to 5)
changes the decoder output at target position 0 — the `x.max(dim=2)`
reduction at line 397 is applied with no mask-fill and (in eval mode) no
upstream zeroing, so the padding position's value wins the maximum. -/
theorem c3_padding_perturbation_changes_output :
    c3SrcBase 0 = c3SrcPerturbed 0 ∧
    c3EncMask 0 = false ∧ c3EncMask 1 = true ∧
    decoderForward (Nat.succ_pos 1) c3Params (some c3EncMask) none c3SrcBase c3Tgt 0 0 ≠
      decoderForward (Nat.succ_pos 1) c3Params (some c3EncMask) none c3SrcPerturbed c3Tgt 0 0 := by
  refine ⟨by decide, rfl, rfl, ?_⟩
  decide

/-- C4 counterexample: the incremental-inference forward pass returns the
raw prediction logits with no log-normalization (lines 396-403 contain no
`log_softmax`); with all-zero weights and a two-token vocabulary the
returned vector is `(0, 0)`, whose exponentials sum to 2, not 1. -/
theorem c4_counterexample_inference_not_normalized :
    ∑ v : Fin 2, Real.exp (((decoderForward Nat.one_pos c4Params none none
      ((fun _ _ => 0) : Fin 1 → Fin 1 → ℤ) (fun _ _ => 0) 0 v : ℤ) : ℝ)) ≠ 1 := by
  have h : ∀ v : Fin 2, decoderForward Nat.one_pos c4Params none none
      ((fun _ _ => 0) : Fin 1 → Fin 1 → ℤ) (fun _ _ => 0) 0 v = 0 := by decide
  simp only [h, Int.cast_zero, Real.exp_zero, Finset.sum_const, Finset.card_univ,
    Fintype.card_fin, smul_eq_mul, mul_one]
  norm_num

/-- Exponentials of a log-softmax output sum to one. -/
theorem sum_exp_logSoftmax {V : ℕ} (hV : 0 < V) (x : Fin V → ℝ) :
    ∑ v, Real.exp (logSoftmax x v) = 1 := by
  haveI : Nonempty (Fin V) := Fin.pos_iff_nonempty.mp hV
  have hT : 0 < ∑ u, Real.exp (x u) :=
    Finset.sum_pos (fun u _ => Real.exp_pos (x u)) Finset.univ_nonempty
  unfold logSoftmax
  have hcalc : ∀ v : Fin V, Real.exp (x v - Real.log (∑ u, Real.exp (x u)))
      = Real.exp (x v) / (∑ u, Real.exp (x u)) := by
    intro v
    rw [Real.exp_sub, Real.exp_log hT]
  simp only [hcalc]
  rw [← Finset.sum_div]
  exact div_self (ne_of_gt hT)

/-- C4 amended: in the training-scoring mode the returned per-cell vectors
are log-normalized over the vocabulary axis — exponentiating and summing
yields 1 at every (target, source) cell; the incremental-inference forward
returns unnormalized logits (see the counterexample). -/
theorem c4_amended_training_normalized {S Cs Ct C Cmid ffn ker outD V : ℕ}
    (hV : 0 < V) (P : DecoderP Cs Ct C Cmid ffn ker outD V)
    (encM decM : Option (ℕ → Bool)) (srcE : Fin S → Fin Cs → ℤ)
    (tgtE : ℕ → Fin Ct → ℤ) (i : ℕ) (j : Fin S) :
    ∑ v, Real.exp (forwardTrainLP P encM decM srcE tgtE i j v) = 1 := by
  unfold forwardTrainLP
  exact sum_exp_logSoftmax hV _

/-- Witness for the amended C4 at a concrete training-scoring run. -/
theorem c4_witness :
    0 < 2 ∧
    ∑ v, Real.exp (forwardTrainLP c4Params none none
      ((fun _ _ => 0) : Fin 1 → Fin 1 → ℤ) (fun _ _ => 0) 0 0 v) = 1 :=
  ⟨by decide,
   c4_amended_training_normalized (by decide) c4Params none none
     ((fun _ _ => 0) : Fin 1 → Fin 1 → ℤ) (fun _ _ => 0) 0 0⟩

end Attn2d
